import Mathlib

/-!
Shallow embedding of the CR30-to-TI3 converter of this repository
(src/build_profile.py and src/cr30_to_ti3.py).  Python strings are Lean
strings, Python floats are exact rationals, dictionaries are association
lists, `None`-able values are `Option`s and fallible parsers return
`Except`.  File reading is abstracted away: the CSV parser receives the
decoded text and the layout parsers receive the list of lines of the file
(each already stripped of its trailing newline, as in the source).
-/

namespace CR30

/-- Python whitespace test, as used by str.strip and str.split. -/
def isWs (c : Char) : Bool :=
  c == ' ' || c == '\t' || c == '\n' || c == '\r' || c == '\x0b' || c == '\x0c'

/-- Python str.strip(): remove leading and trailing whitespace. -/
def pyStrip (s : String) : String :=
  ⟨((s.data.dropWhile isWs).reverse.dropWhile isWs).reverse⟩

/-- Python ln.rstrip of carriage returns, used to normalise CSV line endings. -/
def rstripCR (s : String) : String :=
  ⟨(s.data.reverse.dropWhile (fun c => c == '\r')).reverse⟩

/-- Helper for `splitChar`: Python str.split(sep) semantics on char lists
(keeps empty pieces; the empty string yields one empty piece). -/
def splitCharAux (sep : Char) : List Char → List (List Char)
  | [] => [[]]
  | c :: t =>
    match splitCharAux sep t with
    | [] => [[]]
    | h :: r => if c == sep then [] :: h :: r else (c :: h) :: r

/-- Python s.split(sep) for a one-character separator. -/
def splitChar (sep : Char) (s : String) : List String :=
  (splitCharAux sep s.data).map (fun l => ⟨l⟩)

/-- Helper for `splitWs` accumulating the current word reversed. -/
def splitWsAux : List Char → List Char → List (List Char)
  | acc, [] => if acc.isEmpty then [] else [acc.reverse]
  | acc, c :: t =>
    if isWs c then
      if acc.isEmpty then splitWsAux [] t else acc.reverse :: splitWsAux [] t
    else splitWsAux (c :: acc) t

/-- Python s.split() with no separator: split on whitespace runs, no empty parts. -/
def splitWs (s : String) : List String :=
  (splitWsAux [] s.data).map (fun l => ⟨l⟩)

/-- Character-list test used by `strStarts`. -/
def listPref : List Char → List Char → Bool
  | [], _ => true
  | _ :: _, [] => false
  | c :: p, d :: s => c == d && listPref p s

/-- Python s.startswith(p). -/
def strStarts (s p : String) : Bool := listPref p.data s.data

/-- Python s.lower() (ASCII, which covers the source's inputs). -/
def pyLower (s : String) : String := ⟨s.data.map Char.toLower⟩

/-- Python s.upper() (ASCII). -/
def pyUpper (s : String) : String := ⟨s.data.map Char.toUpper⟩

/-- Python s.replace with one-character pattern and replacement. -/
def replChar (a b : Char) (s : String) : String :=
  ⟨s.data.map (fun c => if c == a then b else c)⟩

/-- Numeric value of a list of decimal digit characters. -/
def digitsVal (l : List Char) : Nat :=
  l.foldl (fun a c => a * 10 + (c.toNat - 48)) 0

/-- Model of Python float(s) restricted to plain decimal numerals
(optional sign, digits, optional fractional part); exponent and special
forms, which the converter's inputs never use, are treated as unparsable. -/
def pyFloat? (s : String) : Option ℚ :=
  let cs := s.data
  let p := match cs with
    | '-' :: t => ((-1 : ℚ), t)
    | '+' :: t => ((1 : ℚ), t)
    | _ => ((1 : ℚ), cs)
  let intPart := p.2.takeWhile Char.isDigit
  let rest := p.2.dropWhile Char.isDigit
  match rest with
  | [] => if intPart.isEmpty then none else some (p.1 * (digitsVal intPart : ℚ))
  | '.' :: frac =>
    if frac.all Char.isDigit && !(intPart.isEmpty && frac.isEmpty) then
      some (p.1 * ((digitsVal intPart : ℚ) + (digitsVal frac : ℚ) / (10 : ℚ) ^ frac.length))
    else none
  | _ => none

/-- Model of Python int(s) on a whitespace-free token. -/
def pyInt? (s : String) : Option Int :=
  let p : Int × List Char := match s.data with
    | '-' :: t => (-1, t)
    | '+' :: t => (1, t)
    | _ => (1, s.data)
  if p.2.isEmpty || !p.2.all Char.isDigit then none
  else some (p.1 * (digitsVal p.2 : Int))

/-- Python int(float x): truncation toward zero. -/
def ratTrunc (q : ℚ) : Int := q.num.tdiv q.den

/-- _to_float of both source files: strip, decimal comma to point, empty or
nan or null is missing, other unparsable tokens are missing too. -/
def _to_float (val : String) : Option ℚ :=
  let s := replChar ',' '.' (pyStrip val)
  if s = "" then none
  else if pyLower s = "nan" || pyLower s = "null" then none
  else pyFloat? s

/-- Characters kept by the CSV header normaliser (regex class [a-z0-9_]). -/
def isNormChar (c : Char) : Bool :=
  (97 ≤ c.toNat && c.toNat ≤ 122) || c.isDigit || c == '_'

/-- The header normaliser of parse_cr30_csv:
re.sub of [^a-z0-9_]+ with the empty string over s.strip().lower(). -/
def norm (s : String) : String :=
  ⟨((pyStrip s).data.map Char.toLower).filter isNormChar⟩

/-- Insert into a list sorted by key, before the first element whose key is
not smaller; used by `sortOn`. -/
def insertSorted {α β : Type} [LinearOrder β] (key : α → β) (x : α) : List α → List α
  | [] => [x]
  | y :: t => if key y < key x then y :: insertSorted key x t else x :: y :: t

/-- Stable sort by key (model of Python list.sort(key=...), which is stable). -/
def sortOn {α β : Type} [LinearOrder β] (key : α → β) : List α → List α
  | [] => []
  | x :: t => insertSorted key x (sortOn key t)

/-- One parsed measurement row of the CR30 CSV (MeasurementRecord). -/
structure Row where
  name : String
  date : String
  test_mode : String
  light_source_angle : String
  L : Option ℚ
  a : Option ℚ
  b : Option ℚ
  X : Option ℚ
  Y : Option ℚ
  Z : Option ℚ
  spectral : List (Nat × ℚ)
deriving DecidableEq, Inhabited

/-- Result of parse_cr30_csv (MeasurementSet). -/
structure CR30Data where
  rows : List Row
  illum_code : Option String
  observer_deg : Option Nat
deriving DecidableEq

/-- Helper for `hget`: Python dict comprehension over enumerate(header) with
norm as key; a later duplicate key overwrites the stored index. -/
def hgetAux (key : String) : Nat → List String → Option Nat
  | _, [] => none
  | i, h :: t =>
    match hgetAux key (i + 1) t with
    | some j => some j
    | none => if norm h = key then some i else none

/-- hmap.get(key): index of the last header cell normalising to key. -/
def hget (header : List String) (key : String) : Option Nat :=
  hgetAux key 0 header

/-- Python `x or y` on optional column indices: an index of 0 is falsy and
falls through to the alternative, exactly as in the source's lookup chains. -/
def pyOrIdx (x y : Option Nat) : Option Nat :=
  match x with
  | some n => if n = 0 then y else some n
  | none => y

/-- Spectral wavelength of a normalised header key: the key matches
re.search of (ddd)(nm)?$ with the three digits in [300, 1100]. -/
def specWl? (key : String) : Option Nat :=
  let cs := key.data
  let core :=
    if cs.length ≥ 2 && decide (cs.drop (cs.length - 2) = ['n', 'm']) then
      cs.take (cs.length - 2)
    else cs
  if core.length ≥ 3 && (core.drop (core.length - 3)).all Char.isDigit then
    let wl := digitsVal (core.drop (core.length - 3))
    if 300 ≤ wl && wl ≤ 1100 then some wl else none
  else none

/-- hmap.items(): distinct normalised keys in first-occurrence order, each
with the index stored by the last occurrence (Python dict semantics). -/
def hmapItems (header : List String) : List (String × Nat) :=
  ((header.map norm).dedup).map (fun k => (k, (hget header k).getD 0))

/-- The column indices resolved from the CSV header by parse_cr30_csv. -/
structure CsvIdx where
  name : Option Nat
  date : Option Nat
  mode : Option Nat
  lsag : Option Nat
  L : Option Nat
  a : Option Nat
  b : Option Nat
  X : Option Nat
  Y : Option Nat
  Z : Option Nat
  specs : List (Nat × Nat)
deriving DecidableEq

/-- Header-index resolution of parse_cr30_csv, including the `or` chains for
the Lab columns and the spectral-column discovery sorted by wavelength. -/
def csvIdx (header : List String) : CsvIdx where
  name := hget header "name"
  date := hget header "date"
  mode := hget header "testmode"
  lsag := hget header "lightsourceangle"
  L := pyOrIdx (pyOrIdx (hget header "l") (hget header "l*")) (hget header "lstar")
  a := pyOrIdx (pyOrIdx (hget header "a") (hget header "a*")) (hget header "astar")
  b := pyOrIdx (pyOrIdx (hget header "b") (hget header "b*")) (hget header "bstar")
  X := hget header "x"
  Y := hget header "y"
  Z := hget header "z"
  specs := sortOn Prod.snd
    ((hmapItems header).filterMap (fun p => (specWl? p.1).map (fun wl => (p.2, wl))))

/-- Python dict assignment d[k] = v on an association list: an existing key
keeps its position and gets the new value, a new key is appended. -/
def dictInsert (m : List (Nat × ℚ)) (k : Nat) (v : ℚ) : List (Nat × ℚ) :=
  if (m.lookup k).isSome then m.map (fun p => if p.1 = k then (k, v) else p)
  else m ++ [(k, v)]

/-- Regex match of ([A-Za-z0-9]+)\s*/\s*(\d+) at the start of the
Light Source/Angle cell, yielding the upper-cased illuminant token and the
observer degrees. -/
def parseLsag (s : String) : Option (String × Nat) :=
  let cs := s.data
  let tok := cs.takeWhile Char.isAlphanum
  let rest := (cs.dropWhile Char.isAlphanum).dropWhile isWs
  if tok.isEmpty then none
  else
    match rest with
    | '/' :: r =>
      let ds := (r.dropWhile isWs).takeWhile Char.isDigit
      if ds.isEmpty then none else some (pyUpper ⟨tok⟩, digitsVal ds)
    | _ => none

/-- text.split of newline followed by rstrip of carriage returns. -/
def splitlines (text : String) : List String :=
  (splitChar '\n' text).map rstripCR

/-- The CSV header row: first line split on semicolons, cells stripped. -/
def csvHeader (line0 : String) : List String :=
  (splitChar ';' line0).map pyStrip

/-- One CSV data line under the resolved indices: the source's loop body.
Returns none when the row is skipped because both L and X are missing. -/
def csvRow (ix : CsvIdx) (line : String) : Option Row :=
  let parts := splitChar ';' line
  let getPart := fun (idx : Option Nat) =>
    match idx with
    | some i => if i < parts.length then some (parts.getD i "") else none
    | none => none
  let L := (getPart ix.L).bind _to_float
  let a := (getPart ix.a).bind _to_float
  let b := (getPart ix.b).bind _to_float
  let X := (getPart ix.X).bind _to_float
  let Y := (getPart ix.Y).bind _to_float
  let Z := (getPart ix.Z).bind _to_float
  if L = none ∧ X = none then none
  else
    some
      { name := (getPart ix.name).getD ""
        date := (getPart ix.date).getD ""
        test_mode := (getPart ix.mode).getD ""
        light_source_angle := (getPart ix.lsag).getD ""
        L := L, a := a, b := b, X := X, Y := Y, Z := Z
        spectral := ix.specs.foldl
          (fun m ci =>
            if ci.1 < parts.length then
              match _to_float (parts.getD ci.1 "") with
              | some v => dictInsert m ci.2 v
              | none => m
            else m) [] }

/-- parse_cr30_csv of both source files on the decoded text.  The guard on an
empty line list is kept verbatim from the source even though text.split of a
newline never returns an empty list. -/
def parse_cr30_csv (text : String) : Except String CR30Data :=
  match splitlines text with
  | [] => .error "Empty CSV file"
  | l0 :: rest =>
    let ix := csvIdx (csvHeader l0)
    let rows := rest.filterMap (fun ln => if pyStrip ln = "" then none else csvRow ix ln)
    let first := rows.findSome? (fun r =>
      if r.light_source_angle ≠ "" then parseLsag r.light_source_angle else none)
    .ok { rows := rows, illum_code := first.map Prod.fst, observer_deg := first.map Prod.snd }

/-! Layout parsing: parse_ti2 of build_profile.py and parse_ti1 of
cr30_to_ti3.py.  Both receive the file's lines. -/

/-- Regex match of ^COLOR_REP\s+"([^"]+)" against one raw line. -/
def matchColorRep (ln : String) : Option String :=
  let cs := ln.data
  if decide (cs.take 9 = "COLOR_REP".data) then
    match cs.drop 9 with
    | c :: t =>
      if isWs c then
        match t.dropWhile isWs with
        | '"' :: r =>
          let v := r.takeWhile (fun d => d ≠ '"')
          let rest := r.dropWhile (fun d => d ≠ '"')
          if !v.isEmpty && !rest.isEmpty then some ⟨v⟩ else none
        | _ => none
      else none
    | [] => none
  else none

/-- The COLOR_REP scan: first matching line among the first k lines
(k = 80 in parse_ti2, k = 50 in parse_ti1). -/
def colorRepScan (k : Nat) (lines : List String) : Option String :=
  (lines.take k).findSome? matchColorRep

/-- The loop locating BEGIN_DATA_FORMAT and END_DATA_FORMAT: fmt_start is the
line after the last BEGIN seen before the first END, fmt_end is the first END
(the loop breaks there). -/
def fmtScan : Nat → Option Nat → List String → Option Nat × Option Nat
  | _, st, [] => (st, none)
  | i, st, ln :: t =>
    if pyStrip ln = "BEGIN_DATA_FORMAT" then fmtScan (i + 1) (some (i + 1)) t
    else if pyStrip ln = "END_DATA_FORMAT" then (st, some i)
    else fmtScan (i + 1) st t

/-- Backward search from fmt_start - 1 for a line starting with
NUMBER_OF_FIELDS; falls back to fmt_start - 1. -/
def headerEndIdx (lines : List String) (fs : Nat) : Nat :=
  match (List.range fs).reverse.find?
      (fun i => strStarts (pyStrip (lines.getD i "")) "NUMBER_OF_FIELDS") with
  | some i => i
  | none => fs - 1

/-- Characters of the header-key regex class [A-Z0-9_]. -/
def isKeyChar (c : Char) : Bool :=
  (65 ≤ c.toNat && c.toNat ≤ 90) || c.isDigit || c == '_'

/-- Regex match of ^([A-Z0-9_]+)\s+"?([^"]+)"?\s*$ against a stripped header
line, yielding key and value.  The regex is embedded greedily: maximal key
run, maximal whitespace run, optional quote, maximal non-quote value run,
optional quote, then only whitespace may remain. -/
def headerKV (s : String) : Option (String × String) :=
  let cs := (pyStrip s).data
  let key := cs.takeWhile isKeyChar
  if key.isEmpty then none
  else
    match cs.dropWhile isKeyChar with
    | c :: t =>
      if isWs c then
        let r := t.dropWhile isWs
        let r := match r with
          | '"' :: r2 => r2
          | _ => r
        let v := r.takeWhile (fun d => d ≠ '"')
        if v.isEmpty then none
        else
          let rest := match r.dropWhile (fun d => d ≠ '"') with
            | '"' :: r3 => r3
            | r3 => r3
          if rest.all isWs then some (⟨key⟩, ⟨v⟩) else none
      else none
    | [] => none

/-- header_map.get(key): value of the last retained header line whose
key-value match has this key (Python dict semantics). -/
def headerGet (header_lines : List String) (key : String) : Option String :=
  (((header_lines.filterMap headerKV).filter (fun p => p.1 == key)).getLast?).map Prod.snd

/-- All whitespace tokens of the lines strictly between the format markers. -/
def fieldTokens (lines : List String) (fs fe : Nat) : List String :=
  ((lines.drop fs).take (fe - fs)).flatMap splitWs

/-- Device-field selection: filter the declared fields to the recognised
device-space name families, with the canonical fallback list. -/
def deviceFieldsOf (fields : List String) : List String :=
  let d := fields.filter (fun f =>
    strStarts f "RGB_" || strStarts f "CMYK_" || strStarts f "GRAY_" || strStarts f "K_")
  if d.isEmpty then
    ["RGB_R", "RGB_G", "RGB_B", "CMYK_C", "CMYK_M", "CMYK_Y", "CMYK_K"].filter
      (fun f => fields.contains f)
  else d

/-- The data-row loop: stripped non-blank lines after BEGIN_DATA, stopping at
the first END_DATA (which breaks the loop even before BEGIN_DATA). -/
def collectData : Bool → List String → List String
  | _, [] => []
  | inData, ln :: t =>
    let s := pyStrip ln
    if s = "BEGIN_DATA" then collectData true t
    else if s = "END_DATA" then []
    else if inData && s ≠ "" then s :: collectData inData t
    else collectData inData t

/-- Strip one layer of surrounding double quotes from a location token. -/
def unquote (s : String) : String :=
  let cs := s.data
  if cs.length ≥ 2 && decide (cs.headD ' ' = '"') && decide (cs.getLastD ' ' = '"') then
    ⟨(cs.drop 1).dropLast⟩
  else s

/-- One data row: sample id from token 0 (row skipped when not an integer)
and, for every declared device field, the value at that field's position in
the full field list, defaulting to zero when absent or unparsable. -/
def dataRowOf (fields dfields : List String) (s : String) : Option (Int × List ℚ) :=
  let parts := splitWs s
  match parts with
  | [] => none
  | p0 :: _ =>
    match pyInt? p0 with
    | none => none
    | some sid =>
      some (sid, dfields.map (fun f =>
        match List.findIdx? (fun g => g == f) fields with
        | none => 0
        | some idx =>
          if idx < parts.length then (_to_float (parts.getD idx "")).getD 0 else 0))

/-- The per-row SAMPLE_LOC capture: present only when the declared field list
has a SAMPLE_LOC column and this row has a token at that position. -/
def dataRowLoc (fields : List String) (locIdx : Option Nat) (s : String) :
    Option (Int × String) :=
  let parts := splitWs s
  match parts with
  | [] => none
  | p0 :: _ =>
    match pyInt? p0 with
    | none => none
    | some sid =>
      match locIdx with
      | none => none
      | some li =>
        if li < fields.length ∧ li < parts.length then
          some (sid, unquote (parts.getD li ""))
        else none

/-- int(float(sp.strip())) for one header value; .error models the Python
exception that voids both counts at once. -/
def colVal (o : Option String) : Except Unit (Option Int) :=
  match o with
  | none => .ok none
  | some s =>
    if pyStrip s = "" then .ok none
    else
      match pyFloat? (pyStrip s) with
      | some q => .ok (some (ratTrunc q))
      | none => .error ()

/-- The cols and rows of the location derivation: both become none when
either textual value raises (the shared try of the source). -/
def parseColsRows (sp ps2 : Option String) : Option Int × Option Int :=
  match colVal sp, colVal ps2 with
  | .ok a, .ok b => (a, b)
  | _, _ => (none, none)

/-- Fueled form of the row_label while loop; fuel i + 1 always suffices
because the loop variable drops below its previous value each iteration. -/
def row_label_aux : Nat → Nat → List Char
  | 0, _ => []
  | fuel + 1, i =>
    if i < 26 then [Char.ofNat (65 + i % 26)]
    else row_label_aux fuel (i / 26 - 1) ++ [Char.ofNat (65 + i % 26)]

/-- row_label: bijective base-26 letter encoding of a zero-based index
(0 is A, 25 is Z, 26 is AA, ...). -/
def row_label (i : Nat) : String := ⟨row_label_aux (i + 1) i⟩

/-- The deterministic SAMPLE_LOC derivation of parse_ti2, run only when the
layout supplied no explicit location table.  cols and rows are the parsed
STEPS_IN_PASS and PASSES_IN_STRIPS2 counts, index_order the stripped
upper-cased INDEX_ORDER header value, dv the sorted device-value table.
The positivity test subsumes the truthiness test of `cols and rows`. -/
def derive_sample_locs (cols? rows? : Option Int) (index_order : String)
    (dv : List (Int × List ℚ)) : List (Int × String) :=
  match cols?, rows? with
  | some c, some r =>
    if 0 < c ∧ 0 < r ∧ (dv.length : Int) = c * r then
      let N := dv.length
      let gen :=
        if index_order = "STRIP_THEN_PATCH" then
          (List.range N).map (fun i =>
            ((dv.getD i (0, [])).1, row_label (i / c.toNat) ++ Nat.repr (i % c.toNat + 1)))
        else if index_order = "PATCH_THEN_STRIP" then
          (List.range N).map (fun i =>
            ((dv.getD i (0, [])).1, row_label (i % r.toNat) ++ Nat.repr (i / r.toNat + 1)))
        else
          (List.range N).map (fun i =>
            ((dv.getD i (0, [])).1, row_label (i / c.toNat) ++ Nat.repr (i % c.toNat + 1)))
      sortOn Prod.fst gen
    else []
  | _, _ => []

/-- Result of parse_ti2 (LayoutDocument). -/
structure TI2Doc where
  device_fields : List String
  device_values : List (Int × List ℚ)
  sample_locs : List (Int × String)
  color_rep_device : Option String
  header_lines : List String
deriving DecidableEq

/-- parse_ti2 of build_profile.py over the file's lines. -/
def parse_ti2 (lines : List String) : Except String TI2Doc :=
  let color_rep := colorRepScan 80 lines
  match fmtScan 0 none lines with
  | (some fs, some fe) =>
    let header_lines := (lines.take (headerEndIdx lines fs)).filter
      (fun ln => pyStrip ln ≠ "" && !strStarts (pyStrip ln) "CTI")
    let fields := fieldTokens lines fs fe
    let dfields := deviceFieldsOf fields
    let locIdx := List.findIdx? (fun g => g == "SAMPLE_LOC") fields
    let dlines := collectData false lines
    let dvs := sortOn Prod.fst (dlines.filterMap (dataRowOf fields dfields))
    let locs0 := dlines.filterMap (dataRowLoc fields locIdx)
    let sample_locs :=
      if !locs0.isEmpty then sortOn Prod.fst locs0
      else
        let cr := parseColsRows (headerGet header_lines "STEPS_IN_PASS")
          (headerGet header_lines "PASSES_IN_STRIPS2")
        let ord := pyUpper (pyStrip ((headerGet header_lines "INDEX_ORDER").getD ""))
        derive_sample_locs cr.1 cr.2 ord dvs
    .ok { device_fields := dfields, device_values := dvs, sample_locs := sample_locs,
          color_rep_device := color_rep, header_lines := header_lines }
  | _ => .error "ti2 missing data format block"

/-- Result of parse_ti1 of cr30_to_ti3.py. -/
structure TI1Doc where
  device_fields : List String
  device_values : List (Int × List ℚ)
  color_rep_device : Option String
deriving DecidableEq

/-- parse_ti1 of cr30_to_ti3.py: like parse_ti2 but the COLOR_REP scan covers
only the first 50 lines and there is no location handling. -/
def parse_ti1 (lines : List String) : Except String TI1Doc :=
  let color_rep := colorRepScan 50 lines
  match fmtScan 0 none lines with
  | (some fs, some fe) =>
    let fields := fieldTokens lines fs fe
    let dfields := deviceFieldsOf fields
    let dlines := collectData false lines
    let dvs := sortOn Prod.fst (dlines.filterMap (dataRowOf fields dfields))
    .ok { device_fields := dfields, device_values := dvs, color_rep_device := color_rep }
  | _ => .error "ti1 missing data format block"

/-! TI3 writing.  The data block is modelled as a list of rows of cells; the
cell constructor records which fixed-precision format the source applies
(dev %.5f, xyz %.6f, lab %.2f, spec %.6f). -/

/-- One emitted token of a TI3 data row. -/
inductive Cell where
  | sid : Int → Cell
  | loc : String → Cell
  | dev : ℚ → Cell
  | xyz : ℚ → Cell
  | lab : ℚ → Cell
  | spec : ℚ → Cell
deriving DecidableEq

/-- The XYZ cell triple of the pass-through writer: the row's values when the
triple is complete, zero-filled otherwise. -/
def xyzCells (r : Row) : List Cell :=
  match r.X, r.Y, r.Z with
  | some x, some y, some z => [Cell.xyz x, Cell.xyz y, Cell.xyz z]
  | _, _, _ => [Cell.xyz 0, Cell.xyz 0, Cell.xyz 0]

/-- The Lab cell triple: the row's values when complete, zero-filled otherwise. -/
def labCells (r : Row) : List Cell :=
  match r.L, r.a, r.b with
  | some l, some a, some b => [Cell.lab l, Cell.lab a, Cell.lab b]
  | _, _, _ => [Cell.lab 0, Cell.lab 0, Cell.lab 0]

/-- The spectral cell for one band: the row's value, or zero when absent. -/
def specCell (r : Row) (wl : Nat) : Cell :=
  Cell.spec ((r.spectral.lookup wl).getD 0)

/-- f-string SPEC_{wl:03d}. -/
def specFieldName (wl : Nat) : String :=
  ⟨['S', 'P', 'E', 'C', '_'] ++ List.replicate (3 - (Nat.repr wl).length) '0'
    ++ (Nat.repr wl).data⟩

/-- set(r.spectral.keys()). -/
def specKeys (r : Row) : List Nat := (r.spectral.map Prod.fst).dedup

/-- set.intersection over the wavelength sets of the rows that carry any
spectral data (empty when no row does). -/
def commonWls (rows : List Row) : List Nat :=
  match (rows.filter (fun r => !r.spectral.isEmpty)).map specKeys with
  | [] => []
  | s :: t => t.foldl (fun acc ks => acc.filter (fun w => decide (w ∈ ks))) s

/-- One data row of the pass-through writer (build_profile.py): sample id,
optional location, device values, then the selected colorimetric groups and
spectral cells. -/
def emitRow (ixyz ilab : Bool) (wls : List Nat) (loc? : Option String)
    (sd : Int × List ℚ) (r : Row) : List Cell :=
  [Cell.sid sd.1]
    ++ (match loc? with | some l => [Cell.loc l] | none => [])
    ++ sd.2.map Cell.dev
    ++ (if ixyz then xyzCells r else [])
    ++ (if ilab then labCells r else [])
    ++ (if wls.isEmpty then [] else wls.map (specCell r))

/-- The field list of the emitted data format, shared by both writer
variants (the single-path variant never includes a location column). -/
def ti3Fields (loc : Bool) (df : List String) (ixyz ilab : Bool) (wls : List Nat) :
    List String :=
  ["SAMPLE_ID"]
    ++ (if loc then ["SAMPLE_LOC"] else [])
    ++ df
    ++ (if ixyz then ["XYZ_X", "XYZ_Y", "XYZ_Z"] else [])
    ++ (if ilab then ["LAB_L", "LAB_A", "LAB_B"] else [])
    ++ wls.map specFieldName

/-- The serialized TI3 content that the claims inspect (InterchangeDocument):
the declared field list, the chosen flags, the emitted band set, the location
column when included, and the data rows. -/
structure TI3Out where
  fields : List String
  color_rep : String
  include_xyz : Bool
  include_lab : Bool
  spec_wls : List Nat
  loc_by_index : Option (List String)
  data_rows : List (List Cell)
deriving DecidableEq

/-- write_ti3 of build_profile.py (pure pass-through variant).  sample_locs
models the optional argument with none as the empty list, which the source's
truthiness test treats identically. -/
def write_ti3 (device_fields : List String) (device_values : List (Int × List ℚ))
    (rows : List Row) (sample_locs : List (Int × String)) : TI3Out :=
  let has_lab := rows.any (fun r => r.L.isSome)
  let has_xyz := rows.any (fun r => r.X.isSome)
  let has_spec := rows.any (fun r => !r.spectral.isEmpty)
  let include_xyz := has_xyz
  let include_lab := has_lab
  let dev_tag :=
    if device_fields.any (fun df => strStarts df "RGB_") then "RGB"
    else if device_fields.any (fun df => strStarts df "CMYK_") then "CMYK"
    else "DEV"
  let pcs := if include_xyz then "XYZ" else if include_lab then "LAB" else "XYZ"
  let N := min device_values.length rows.length
  let loc_by_index : Option (List String) :=
    if !sample_locs.isEmpty && N ≤ sample_locs.length then
      some ((sample_locs.take N).map Prod.snd)
    else none
  let spec_wls := if has_spec then sortOn id (commonWls rows) else []
  let fields := ti3Fields loc_by_index.isSome device_fields include_xyz include_lab spec_wls
  let ordered_rows := rows.take N
  { fields := fields
    color_rep := "i" ++ dev_tag ++ "_" ++ pcs
    include_xyz := include_xyz
    include_lab := include_lab
    spec_wls := spec_wls
    loc_by_index := loc_by_index
    data_rows := (List.range N).map (fun i =>
      emitRow include_xyz include_lab spec_wls
        (loc_by_index.map (fun ls => ls.getD i ""))
        (device_values.getD i (0, []))
        (ordered_rows.getD i default)) }

/-- lab_to_xyz of cr30_to_ti3.py: the CIE Lab inverse transform under the
fixed reference whites, over exact rationals. -/
def lab_to_xyz (L a b : ℚ) (illuminant : String) : ℚ × ℚ × ℚ :=
  let w : ℚ × ℚ × ℚ :=
    if pyUpper illuminant = "D50" then (96422 / 1000, 100, 82521 / 1000)
    else if pyUpper illuminant = "D65" then (95047 / 1000, 100, 108883 / 1000)
    else (96422 / 1000, 100, 82521 / 1000)
  let fy := (L + 16) / 116
  let fx := fy + a / 500
  let fz := fy - b / 200
  let delta : ℚ := 6 / 29
  let f_inv := fun (t : ℚ) =>
    if t > delta then t ^ 3 else 3 * delta * delta * (t - 4 / 29)
  (w.1 * f_inv fx, w.2.1 * f_inv fy, w.2.2 * f_inv fz)

/-- The XYZ cell triple of the single-path writer (cr30_to_ti3.py): complete
XYZ passes through, a complete Lab triple is otherwise back-filled through
lab_to_xyz under D50, and zero-fill is the last resort. -/
def xyzCellsBF (r : Row) : List Cell :=
  match r.X, r.Y, r.Z with
  | some x, some y, some z => [Cell.xyz x, Cell.xyz y, Cell.xyz z]
  | _, _, _ =>
    match r.L, r.a, r.b with
    | some l, some a, some b =>
      let t := lab_to_xyz l a b "D50"
      [Cell.xyz t.1, Cell.xyz t.2.1, Cell.xyz t.2.2]
    | _, _, _ => [Cell.xyz 0, Cell.xyz 0, Cell.xyz 0]

/-- One data row of the single-path writer: no location column, XYZ cells
with Lab back-fill. -/
def emitRowBF (ixyz ilab : Bool) (wls : List Nat) (sd : Int × List ℚ) (r : Row) :
    List Cell :=
  [Cell.sid sd.1]
    ++ sd.2.map Cell.dev
    ++ (if ixyz then xyzCellsBF r else [])
    ++ (if ilab then labCells r else [])
    ++ (if wls.isEmpty then [] else wls.map (specCell r))

/-- write_ti3 of cr30_to_ti3.py (single-path variant with preference flags). -/
def write_ti3_v2 (device_fields : List String) (device_values : List (Int × List ℚ))
    (rows : List Row) (prefer_spectral prefer_xyz_over_lab : Bool) : TI3Out :=
  let has_lab := rows.any (fun r => r.L.isSome)
  let has_xyz := rows.any (fun r => r.X.isSome)
  let has_spec := rows.any (fun r => !r.spectral.isEmpty)
  let flags : Bool × Bool :=
    if has_spec && prefer_spectral then (false, false)
    else if has_xyz && (!has_lab || prefer_xyz_over_lab) then (true, false)
    else if has_lab then (false, true)
    else (false, false)
  let include_xyz := flags.1
  let include_lab := flags.2
  let dev_tag :=
    if device_fields.any (fun df => strStarts df "RGB_") then "RGB"
    else if device_fields.any (fun df => strStarts df "CMYK_") then "CMYK"
    else "DEV"
  let pcs := if include_xyz || (has_spec && prefer_spectral) then "XYZ" else "LAB"
  let spec_wls := if has_spec then sortOn id (commonWls rows) else []
  let fields := ti3Fields false device_fields include_xyz include_lab spec_wls
  let N := min device_values.length rows.length
  let ordered_rows := rows.take N
  { fields := fields
    color_rep := "i" ++ dev_tag ++ "_" ++ pcs
    include_xyz := include_xyz
    include_lab := include_lab
    spec_wls := spec_wls
    loc_by_index := none
    data_rows := (List.range N).map (fun i =>
      emitRowBF include_xyz include_lab spec_wls
        (device_values.getD i (0, []))
        (ordered_rows.getD i default)) }

/-- The conversion pipeline of build_profile.main after the preflight checks:
parse the CSV, parse the layout, then write; any parse failure aborts before
the writer runs, so no output document exists. -/
def convert (csvText : String) (ti2Lines : List String) : Except String TI3Out := do
  let cr ← parse_cr30_csv csvText
  let t ← parse_ti2 ti2Lines
  pure (write_ti3 t.device_fields t.device_values cr.rows t.sample_locs)

/-- Whether an Except computation succeeded. -/
def exOk {ε α : Type} : Except ε α → Bool
  | .ok _ => true
  | .error _ => false

/-! Concrete example inputs used by counterexamples and witnesses. -/

/-- A measurement row carrying only a complete Lab triple. -/
def rLabOnly : Row :=
  { name := "", date := "", test_mode := "", light_source_angle := "",
    L := some 50, a := some 0, b := some 0, X := none, Y := none, Z := none,
    spectral := [] }

/-- A measurement row carrying only an X value (an incomplete XYZ triple). -/
def rXOnly : Row :=
  { name := "", date := "", test_mode := "", light_source_angle := "",
    L := none, a := none, b := none, X := some 1, Y := none, Z := none,
    spectral := [] }

/-- The Lab white point row, for exercising the Lab-to-XYZ back-fill. -/
def rLabWhite : Row :=
  { name := "", date := "", test_mode := "", light_source_angle := "",
    L := some 100, a := some 0, b := some 0, X := none, Y := none, Z := none,
    spectral := [] }

/-- A spectral row with bands 400 and 500. -/
def rSpecA : Row :=
  { name := "", date := "", test_mode := "", light_source_angle := "",
    L := some 50, a := some 0, b := some 0, X := none, Y := none, Z := none,
    spectral := [(400, 1), (500, 2)] }

/-- A spectral row with bands 400, 500 and 600. -/
def rSpecB : Row :=
  { name := "", date := "", test_mode := "", light_source_angle := "",
    L := some 60, a := some 0, b := some 0, X := none, Y := none, Z := none,
    spectral := [(400, 3), (500, 4), (600, 5)] }

/-- The end-to-end scenario CSV: three valid rows plus one all-missing row. -/
def exCsv : String :=
  "Name;L;a;b;X;Y;Z\nP1;10;1;1;;;\nP2;20;2;2;;;\nP3;30;3;3;;;\nJunk;;;;;;\n"

/-- The end-to-end scenario layout: four device samples, no location field,
a 2-by-2 grid declared in the header. -/
def exTi2 : List String :=
  ["CTI2", "", "STEPS_IN_PASS \"2\"", "PASSES_IN_STRIPS2 \"2\"",
   "INDEX_ORDER \"STRIP_THEN_PATCH\"", "NUMBER_OF_FIELDS 4", "BEGIN_DATA_FORMAT",
   "SAMPLE_ID RGB_R RGB_G RGB_B", "END_DATA_FORMAT", "NUMBER_OF_SETS 4",
   "BEGIN_DATA", "1 0 0 0", "2 255 0 0", "3 0 255 0", "4 0 0 255", "END_DATA"]

/-- A layout whose COLOR_REP line sits at index 60: inside the 80-line scan
window of parse_ti2 but beyond the 50-line window of parse_ti1. -/
def exLate : List String :=
  List.replicate 60 "x" ++
    ["COLOR_REP \"XYZ\"", "BEGIN_DATA_FORMAT", "SAMPLE_ID RGB_R", "END_DATA_FORMAT",
     "BEGIN_DATA", "1 0", "END_DATA"]

/-! Helper lemmas. -/

theorem insertSorted_perm {α β : Type} [LinearOrder β] (key : α → β) (x : α) :
    ∀ l : List α, List.Perm (insertSorted key x l) (x :: l)
  | [] => List.Perm.refl _
  | y :: t => by
    unfold insertSorted
    split
    · exact ((insertSorted_perm key x t).cons y).trans (List.Perm.swap x y t)
    · exact List.Perm.refl _

theorem sortOn_perm {α β : Type} [LinearOrder β] (key : α → β) :
    ∀ l : List α, List.Perm (sortOn key l) l
  | [] => List.Perm.refl _
  | x :: t => (insertSorted_perm key x (sortOn key t)).trans ((sortOn_perm key t).cons x)

theorem mem_sortOn {α β : Type} [LinearOrder β] {key : α → β} {l : List α} {y : α} :
    y ∈ sortOn key l ↔ y ∈ l :=
  (sortOn_perm key l).mem_iff

theorem length_sortOn {α β : Type} [LinearOrder β] (key : α → β) (l : List α) :
    (sortOn key l).length = l.length :=
  (sortOn_perm key l).length_eq

theorem insertSorted_pairwise {α β : Type} [LinearOrder β] {key : α → β} (x : α) :
    ∀ {l : List α}, l.Pairwise (fun a b => key a ≤ key b) →
      (insertSorted key x l).Pairwise (fun a b => key a ≤ key b)
  | [], _ => List.pairwise_singleton _ x
  | y :: t, h => by
    unfold insertSorted
    rcases List.pairwise_cons.mp h with ⟨hy, ht⟩
    split
    · rename_i hlt
      refine List.pairwise_cons.mpr ⟨?_, insertSorted_pairwise x ht⟩
      intro z hz
      rcases List.mem_cons.mp ((insertSorted_perm key x t).mem_iff.mp hz) with rfl | hzt
      · exact le_of_lt hlt
      · exact hy z hzt
    · rename_i hnlt
      refine List.pairwise_cons.mpr ⟨?_, h⟩
      intro z hz
      rcases List.mem_cons.mp hz with rfl | hzt
      · exact le_of_not_lt hnlt
      · exact le_trans (le_of_not_lt hnlt) (hy z hzt)

theorem sortOn_pairwise {α β : Type} [LinearOrder β] (key : α → β) :
    ∀ l : List α, (sortOn key l).Pairwise (fun a b => key a ≤ key b)
  | [] => List.Pairwise.nil
  | x :: t => insertSorted_pairwise x (sortOn_pairwise key t)

theorem insertSorted_eq_cons {α β : Type} [LinearOrder β] {key : α → β} {x : α}
    {l : List α} (h : ∀ y ∈ l, key x ≤ key y) : insertSorted key x l = x :: l := by
  cases l with
  | nil => rfl
  | cons y t =>
    unfold insertSorted
    rw [if_neg (not_lt.mpr (h y (List.mem_cons_self y t)))]

theorem sortOn_eq_self {α β : Type} [LinearOrder β] {key : α → β} :
    ∀ {l : List α}, l.Pairwise (fun a b => key a ≤ key b) → sortOn key l = l
  | [], _ => rfl
  | x :: t, h => by
    rcases List.pairwise_cons.mp h with ⟨hx, ht⟩
    unfold sortOn
    rw [sortOn_eq_self ht, insertSorted_eq_cons hx]

theorem mem_foldl_filter {w : Nat} :
    ∀ (t : List (List Nat)) (s : List Nat),
      (w ∈ t.foldl (fun acc ks => acc.filter (fun x => decide (x ∈ ks))) s ↔
        w ∈ s ∧ ∀ ks ∈ t, w ∈ ks)
  | [], s => by simp
  | k :: t, s => by
    rw [List.foldl_cons, mem_foldl_filter t]
    simp [List.mem_filter, and_assoc]

theorem nodup_foldl_filter :
    ∀ (t : List (List Nat)) {s : List Nat}, s.Nodup →
      (t.foldl (fun acc ks => acc.filter (fun x => decide (x ∈ ks))) s).Nodup
  | [], _, h => h
  | k :: t, s, h => by
    rw [List.foldl_cons]
    exact nodup_foldl_filter t (h.filter _)

theorem splitCharAux_ne_nil (sep : Char) : ∀ l : List Char, splitCharAux sep l ≠ []
  | [] => by simp [splitCharAux]
  | c :: t => by
    unfold splitCharAux
    cases h : splitCharAux sep t with
    | nil => exact absurd h (splitCharAux_ne_nil sep t)
    | cons x r =>
      split
      · simp
      · split <;> simp

theorem splitlines_ne_nil (text : String) : splitlines text ≠ [] := by
  unfold splitlines splitChar
  intro h
  exact splitCharAux_ne_nil '\n' text.data (by simpa using h)

theorem fmtScan_snd_none :
    ∀ (lines : List String), (∀ ln ∈ lines, pyStrip ln ≠ "END_DATA_FORMAT") →
      ∀ (i : Nat) (st : Option Nat), (fmtScan i st lines).2 = none
  | [], _, _, _ => rfl
  | ln :: t, h, i, st => by
    have hln := h ln (List.mem_cons_self ln t)
    have ht : ∀ x ∈ t, pyStrip x ≠ "END_DATA_FORMAT" :=
      fun x hx => h x (List.mem_cons_of_mem ln hx)
    unfold fmtScan
    by_cases h1 : pyStrip ln = "BEGIN_DATA_FORMAT"
    · rw [if_pos h1]
      exact fmtScan_snd_none t ht (i + 1) (some (i + 1))
    · rw [if_neg h1, if_neg hln]
      exact fmtScan_snd_none t ht (i + 1) st

theorem hgetAux_eq_none {key : String} :
    ∀ {l : List String}, (∀ s ∈ l, norm s ≠ key) → ∀ i, hgetAux key i l = none
  | [], _, _ => rfl
  | h :: t, hne, i => by
    unfold hgetAux
    rw [hgetAux_eq_none (fun s hs => hne s (List.mem_cons_of_mem h hs)) (i + 1)]
    simp [hne h (List.mem_cons_self h t)]

theorem norm_chars {s : String} : ∀ c ∈ (norm s).data, isNormChar c = true := by
  intro c hc
  exact (List.mem_filter.mp hc).2

theorem norm_ne_of_star {key : String} (hk : '*' ∈ key.data) (s : String) :
    norm s ≠ key := by
  intro h
  have hmem : '*' ∈ (norm s).data := by
    rw [h]
    exact hk
  exact absurd (norm_chars '*' hmem) (by decide)

theorem hget_star_none (header : List String) {key : String} (hk : '*' ∈ key.data) :
    hget header key = none :=
  hgetAux_eq_none (fun s _ => norm_ne_of_star hk s) 0

theorem hgetAux_cons (key : String) (i : Nat) (h : String) (t : List String) :
    hgetAux key i (h :: t) =
      match hgetAux key (i + 1) t with
      | some j => some j
      | none => if norm h = key then some i else none := rfl

theorem findSome?_eq_of_first {α β : Type} {f : α → Option β} :
    ∀ (l : List α) (i : Nat) (x : α) (v : β), l.get? i = some x → f x = some v →
      (∀ j y, j < i → l.get? j = some y → f y = none) → l.findSome? f = some v
  | [], i, x, v, hg, _, _ => by simp at hg
  | a :: t, 0, x, v, hg, hf, _ => by
    simp only [List.get?_cons_zero, Option.some.injEq] at hg
    subst hg
    simp [List.findSome?_cons, hf]
  | a :: t, i + 1, x, v, hg, hf, hprev => by
    have ha : f a = none := hprev 0 a (Nat.succ_pos i) rfl
    simp only [List.get?_cons_succ] at hg
    rw [List.findSome?_cons, ha]
    exact findSome?_eq_of_first t i x v hg hf
      (fun j y hj hgj => hprev (j + 1) y (Nat.succ_lt_succ hj) hgj)

theorem getD_take {α : Type} {l : List α} {n i : Nat} (d : α) (h : i < n) :
    (l.take n).getD i d = l.getD i d := by
  simp [List.getD_eq_getD_get?, List.getElem?_take_of_lt h]

section ClaimTheorems

attribute [local semireducible] Rat.add Rat.mul Rat.inv Rat.sub Rat.ofScientific

theorem specFieldName_take5 (wl : Nat) :
    (specFieldName wl).data.take 5 = ['S', 'P', 'E', 'C', '_'] := rfl

theorem notMem_specNames {s : String}
    (h : s.data.take 5 ≠ ['S', 'P', 'E', 'C', '_']) (wls : List Nat) :
    s ∉ wls.map specFieldName := by
  simp only [List.mem_map, not_exists, not_and]
  intro wl _ he
  exact h (he ▸ specFieldName_take5 wl)

theorem mem_ti3Fields_xyz {df : List String} (h : "XYZ_X" ∉ df)
    (loc ixyz ilab : Bool) (wls : List Nat) :
    ("XYZ_X" ∈ ti3Fields loc df ixyz ilab wls ↔ ixyz = true) := by
  have hs := notMem_specNames (s := "XYZ_X") (by decide) wls
  cases loc <;> cases ixyz <;> cases ilab <;>
    simp_all [ti3Fields, List.mem_append]

theorem mem_ti3Fields_lab {df : List String} (h : "LAB_L" ∉ df)
    (loc ixyz ilab : Bool) (wls : List Nat) :
    ("LAB_L" ∈ ti3Fields loc df ixyz ilab wls ↔ ilab = true) := by
  have hs := notMem_specNames (s := "LAB_L") (by decide) wls
  cases loc <;> cases ixyz <;> cases ilab <;>
    simp_all [ti3Fields, List.mem_append]

theorem mem_ti3Fields_loc {df : List String} (h : "SAMPLE_LOC" ∉ df)
    (loc ixyz ilab : Bool) (wls : List Nat) :
    ("SAMPLE_LOC" ∈ ti3Fields loc df ixyz ilab wls ↔ loc = true) := by
  have hs := notMem_specNames (s := "SAMPLE_LOC") (by decide) wls
  cases loc <;> cases ixyz <;> cases ilab <;>
    simp_all [ti3Fields, List.mem_append]

/-- Claim C8: the spec says parse fails with ParseError on an empty file, and
the source contains a dead guard raising that error; but splitting the empty
text on newlines yields one empty line, the guard never fires, and the empty
file parses to an empty measurement set.  This theorem evaluates the parser
at the failing input, exhibiting the divergence. -/
theorem claim_C8 :
    parse_cr30_csv "" =
      Except.ok { rows := [], illum_code := none, observer_deg := none } := rfl

/-- Claim C7: a layout with no END_DATA_FORMAT line makes the layout parser
fail, and the whole conversion fails before any output document is built. -/
theorem claim_C7 :
    ∀ (csvText : String) (lines : List String),
      (∀ ln ∈ lines, pyStrip ln ≠ "END_DATA_FORMAT") →
      exOk (parse_ti2 lines) = false ∧ exOk (convert csvText lines) = false := by
  intro csvText lines h
  have h2 : (fmtScan 0 none lines).2 = none := fmtScan_snd_none lines h 0 none
  have hp : exOk (parse_ti2 lines) = false := by
    unfold parse_ti2
    rcases hscan : fmtScan 0 none lines with ⟨st, en⟩
    rw [hscan] at h2
    simp only at h2
    subst h2
    cases st <;> rfl
  refine ⟨hp, ?_⟩
  unfold convert
  cases hcsv : parse_cr30_csv csvText with
  | error e => rfl
  | ok cr =>
    cases hti : parse_ti2 lines with
    | error e => simp [bind, Except.bind, hti, exOk]
    | ok d =>
      rw [hti] at hp
      simp [exOk] at hp

/-- Claim C7 witness: a two-line layout with only a BEGIN marker. -/
theorem claim_C7_witness :
    exOk (parse_ti2 ["CTI2", "BEGIN_DATA_FORMAT"]) = false ∧
    exOk (convert "" ["CTI2", "BEGIN_DATA_FORMAT"]) = false :=
  claim_C7 "" ["CTI2", "BEGIN_DATA_FORMAT"] (by decide)

/-- Row formula of the pass-through writer, shared by several proofs. -/
theorem write_ti3_row (df : List String) (dv : List (Int × List ℚ)) (rows : List Row)
    (locs : List (Int × String)) {i : Nat} (hi : i < min dv.length rows.length) :
    (write_ti3 df dv rows locs).data_rows.get? i =
      some (emitRow (write_ti3 df dv rows locs).include_xyz
        (write_ti3 df dv rows locs).include_lab
        (write_ti3 df dv rows locs).spec_wls
        ((write_ti3 df dv rows locs).loc_by_index.map (fun ls => ls.getD i ""))
        (dv.getD i (0, [])) (rows.getD i default)) := by
  simp only [write_ti3]
  rw [List.get?_map, List.get?_range hi]
  simp only [Option.map_some']
  rw [getD_take (default : Row) hi]

/-- The location column of the pass-through writer, by definition. -/
theorem write_ti3_loc (df : List String) (dv : List (Int × List ℚ)) (rows : List Row)
    (locs : List (Int × String)) :
    (write_ti3 df dv rows locs).loc_by_index =
      if (!locs.isEmpty && decide (min dv.length rows.length ≤ locs.length)) = true
      then some ((locs.take (min dv.length rows.length)).map Prod.snd) else none := rfl

/-- The emitted field list of the pass-through writer, by definition. -/
theorem write_ti3_fields (df : List String) (dv : List (Int × List ℚ)) (rows : List Row)
    (locs : List (Int × String)) :
    (write_ti3 df dv rows locs).fields =
      ti3Fields (write_ti3 df dv rows locs).loc_by_index.isSome df
        (rows.any fun r => r.X.isSome) (rows.any fun r => r.L.isSome)
        (write_ti3 df dv rows locs).spec_wls := rfl

/-- Claim C1 counterexample: with one device sample and two measurement rows,
N = 1, yet dropping the second (beyond-N) measurement row changes the emitted
data rows, because the XYZ group inclusion flag reads every parsed row.  So
measurement rows at positions at or beyond N are read when the data rows are
emitted, contrary to the claim. -/
theorem claim_C1_counterexample :
    min [(1, ([] : List ℚ))].length [rLabOnly, rXOnly].length = 1 ∧
    (write_ti3 [] [(1, [])] [rLabOnly, rXOnly] []).data_rows ≠
      (write_ti3 [] [(1, [])] [rLabOnly] []).data_rows := by decide

/-- Claim C1 (amended): the writer emits exactly N = min(deviceSampleCount,
measurementRecordCount) data rows; device samples at positions at or beyond N
are never read (truncating the device table to N leaves the output
unchanged); and pairing is purely positional, data row i combining
device_values[i] with CSV row i.  Measurement rows at or beyond N contribute
no data row of their own but do feed the field-group flags and the spectral
band intersection, which the counterexample shows can change emitted rows. -/
theorem claim_C1 :
    ∀ (df : List String) (dv : List (Int × List ℚ)) (rows : List Row)
      (locs : List (Int × String)),
      (write_ti3 df dv rows locs).data_rows.length = min dv.length rows.length ∧
      write_ti3 df dv rows locs =
        write_ti3 df (dv.take (min dv.length rows.length)) rows locs ∧
      ∀ i, i < min dv.length rows.length →
        (write_ti3 df dv rows locs).data_rows.get? i =
          some (emitRow (write_ti3 df dv rows locs).include_xyz
            (write_ti3 df dv rows locs).include_lab
            (write_ti3 df dv rows locs).spec_wls
            ((write_ti3 df dv rows locs).loc_by_index.map (fun ls => ls.getD i ""))
            (dv.getD i (0, [])) (rows.getD i default)) := by
  intro df dv rows locs
  have hN : min (dv.take (min dv.length rows.length)).length rows.length =
      min dv.length rows.length := by
    simp [List.length_take]
  refine ⟨by simp [write_ti3], ?_, ?_⟩
  · simp only [write_ti3]
    rw [hN]
    congr 1
    exact List.map_congr_left fun i hi =>
      by rw [getD_take ((0 : Int), ([] : List ℚ)) (List.mem_range.mp hi)]
  · intro i hi
    exact write_ti3_row df dv rows locs hi

/-- Claim C1 witness: the pairing equation instantiated on one sample. -/
theorem claim_C1_witness :
    (write_ti3 [] [(1, [])] [rLabOnly] []).data_rows.get? 0 =
      some (emitRow false true [] none (1, []) rLabOnly) := by
  have h := (claim_C1 [] [(1, [])] [rLabOnly] []).2.2 0 (by decide)
  exact h.trans (by decide)

/-- Claim C2 counterexample: one device sample and two measurement rows give
N = 1; the only retained row has no complete XYZ triple (no XYZ value at
all), and the beyond-N row carries only an incomplete triple, yet the XYZ
group is emitted — inclusion is not governed by complete triples of retained
rows. -/
theorem claim_C2_counterexample :
    "XYZ_X" ∈ (write_ti3 [] [(1, [])] [rLabOnly, rXOnly] []).fields ∧
    ∀ r ∈ [rLabOnly, rXOnly].take
        (min [(1, ([] : List ℚ))].length [rLabOnly, rXOnly].length),
      ¬(r.X.isSome ∧ r.Y.isSome ∧ r.Z.isSome) := by decide

/-- Claim C2 (amended): the pass-through writer includes the XYZ group iff
some parsed row (retained or not) has an X value present, and the Lab group
iff some parsed row has an L value present; for an included group, a row
lacking that group's complete triple is written as zero-filled values, never
recomputed from the other colour form. -/
theorem claim_C2 :
    ∀ (df : List String) (dv : List (Int × List ℚ)) (rows : List Row)
      (locs : List (Int × String)), "XYZ_X" ∉ df → "LAB_L" ∉ df →
      (("XYZ_X" ∈ (write_ti3 df dv rows locs).fields ↔
          rows.any (fun r => r.X.isSome) = true) ∧
        ("LAB_L" ∈ (write_ti3 df dv rows locs).fields ↔
          rows.any (fun r => r.L.isSome) = true)) ∧
      (∀ r : Row, ¬(r.X.isSome ∧ r.Y.isSome ∧ r.Z.isSome) →
        xyzCells r = [Cell.xyz 0, Cell.xyz 0, Cell.xyz 0]) ∧
      (∀ r : Row, ¬(r.L.isSome ∧ r.a.isSome ∧ r.b.isSome) →
        labCells r = [Cell.lab 0, Cell.lab 0, Cell.lab 0]) := by
  intro df dv rows locs hdx hdl
  refine ⟨⟨?_, ?_⟩, ?_, ?_⟩
  · rw [write_ti3_fields, mem_ti3Fields_xyz hdx]
  · rw [write_ti3_fields, mem_ti3Fields_lab hdl]
  · intro r h
    unfold xyzCells
    split
    · simp_all
    · rfl
  · intro r h
    unfold labCells
    split
    · simp_all
    · rfl

/-- Claim C2 witness: a lone X value forces the XYZ group, and a row with
only Lab data gets zero-filled XYZ cells. -/
theorem claim_C2_witness :
    "XYZ_X" ∈ (write_ti3 [] [] [rXOnly] []).fields ∧
    xyzCells rLabOnly = [Cell.xyz 0, Cell.xyz 0, Cell.xyz 0] := by
  have h := claim_C2 [] [] [rXOnly] [] (by decide) (by decide)
  exact ⟨h.1.1.mpr (by decide), h.2.1 rLabOnly (by decide)⟩

/-- Claim C5 counterexample: with no measurement rows, N = 0 and the empty
location table has at least N entries, yet no SAMPLE_LOC column is emitted —
the writer additionally demands a nonempty table, so the claimed iff fails. -/
theorem claim_C5_counterexample :
    min ([] : List (Int × List ℚ)).length ([] : List Row).length ≤
      ([] : List (Int × String)).length ∧
    "SAMPLE_LOC" ∉ (write_ti3 [] [] [] []).fields := by decide

/-- Claim C5 (amended): a SAMPLE_LOC column appears iff the location table is
nonempty and has at least N entries, in which case data row i carries the
i-th of the first N table labels; and in the end-to-end scenario (CSV with
three valid rows plus one all-missing row, layout with four device samples,
no location field, and a 2-by-2 strip-then-patch header) the output has
exactly three data rows and a location column labelled A1, A2, B1. -/
theorem claim_C5 :
    (∀ (df : List String) (dv : List (Int × List ℚ)) (rows : List Row)
      (locs : List (Int × String)), "SAMPLE_LOC" ∉ df →
      ("SAMPLE_LOC" ∈ (write_ti3 df dv rows locs).fields ↔
        locs ≠ [] ∧ min dv.length rows.length ≤ locs.length)) ∧
    (∀ (df : List String) (dv : List (Int × List ℚ)) (rows : List Row)
      (locs : List (Int × String)) (i : Nat),
      locs ≠ [] → min dv.length rows.length ≤ locs.length →
      i < min dv.length rows.length →
      ((write_ti3 df dv rows locs).data_rows.getD i []).get? 1 =
        some (Cell.loc ((locs.getD i (0, "")).2))) ∧
    ((convert exCsv exTi2).toOption.map (fun o => o.data_rows.length) = some 3) ∧
    ((convert exCsv exTi2).toOption.map
        (fun o => decide ("SAMPLE_LOC" ∈ o.fields)) = some true) ∧
    ((convert exCsv exTi2).toOption.map
        (fun o => o.data_rows.map (fun c => c.get? 1)) =
      some [some (Cell.loc "A1"), some (Cell.loc "A2"), some (Cell.loc "B1")]) := by
  refine ⟨?_, ?_, by decide, by decide, by decide⟩
  · intro df dv rows locs hd
    rw [write_ti3_fields, mem_ti3Fields_loc hd, write_ti3_loc]
    split
    · rename_i hc
      simp only [Bool.and_eq_true, Bool.not_eq_true', decide_eq_true_eq] at hc
      simp only [Option.isSome_some, true_iff]
      exact ⟨fun he => by simp [he] at hc, hc.2⟩
    · rename_i hc
      simp only [Option.isSome_none, Bool.false_eq_true, false_iff]
      intro h
      have hE : locs.isEmpty = false := by
        cases locs with
        | nil => exact absurd rfl h.1
        | cons a t => rfl
      exact hc (by simp [hE, h.2])
  · intro df dv rows locs i hne hlen hi
    have hcond : (!locs.isEmpty && decide (min dv.length rows.length ≤ locs.length)) = true := by
      simp [hne, hlen]
    have hloc : (write_ti3 df dv rows locs).loc_by_index =
        some ((locs.take (min dv.length rows.length)).map Prod.snd) := by
      rw [write_ti3_loc, if_pos hcond]
    have hrow := write_ti3_row df dv rows locs hi
    rw [hloc] at hrow
    have hgd : (write_ti3 df dv rows locs).data_rows.getD i [] =
        emitRow (write_ti3 df dv rows locs).include_xyz
          (write_ti3 df dv rows locs).include_lab
          (write_ti3 df dv rows locs).spec_wls
          (some (((locs.take (min dv.length rows.length)).map Prod.snd).getD i ""))
          (dv.getD i (0, [])) (rows.getD i default) := by
      rw [List.getD_eq_getD_get?, hrow]
      rfl
    rw [hgd]
    have hlab : ((locs.take (min dv.length rows.length)).map Prod.snd).getD i "" =
        (locs.getD i (0, "")).2 := by
      have hi2 : i < locs.length := lt_of_lt_of_le hi hlen
      simp [List.getD_eq_getD_get?, List.getElem?_map, List.getElem?_take_of_lt hi,
        List.getElem?_eq_getElem hi2]
    rw [hlab]
    simp [emitRow]

/-- Claim C5 witness: one sample with an explicit one-entry location table. -/
theorem claim_C5_witness :
    "SAMPLE_LOC" ∈ (write_ti3 [] [(1, [])] [rLabOnly] [(1, "A1")]).fields ∧
    ((write_ti3 [] [(1, [])] [rLabOnly] [(1, "A1")]).data_rows.getD 0 []).get? 1 =
      some (Cell.loc "A1") := by
  have h := claim_C5
  refine ⟨(h.1 [] [(1, [])] [rLabOnly] [(1, "A1")] (by decide)).mpr (by decide), ?_⟩
  have h2 := h.2.1 [] [(1, [])] [rLabOnly] [(1, "A1")] 0 (by decide) (by decide) (by decide)
  exact h2.trans (by decide)

theorem bnot_isEmpty_iff {α : Type} (l : List α) : ((!l.isEmpty) = true ↔ l ≠ []) := by
  cases l <;> simp

/-- The emitted band set of the pass-through writer, by definition. -/
theorem write_ti3_spec_wls (df : List String) (dv : List (Int × List ℚ))
    (rows : List Row) (locs : List (Int × String)) :
    (write_ti3 df dv rows locs).spec_wls =
      if (rows.any fun r => !r.spectral.isEmpty) = true
      then sortOn id (commonWls rows) else [] := rfl

theorem mem_commonWls {rows : List Row} {w : Nat}
    (hex : ∃ r ∈ rows, r.spectral ≠ []) :
    (w ∈ commonWls rows ↔ ∀ r ∈ rows, r.spectral ≠ [] → w ∈ specKeys r) := by
  obtain ⟨r0, hr0, hs0⟩ := hex
  have hmem : r0 ∈ rows.filter (fun r => !r.spectral.isEmpty) :=
    List.mem_filter.mpr ⟨hr0, (bnot_isEmpty_iff _).mpr hs0⟩
  unfold commonWls
  cases hf : (rows.filter (fun r => !r.spectral.isEmpty)).map specKeys with
  | nil =>
    rw [List.map_eq_nil] at hf
    rw [hf] at hmem
    exact absurd hmem (List.not_mem_nil r0)
  | cons s t =>
    rw [mem_foldl_filter, ← List.forall_mem_cons (p := fun ks => w ∈ ks), ← hf]
    constructor
    · intro h r' hr' hs'
      exact h (specKeys r')
        (List.mem_map_of_mem _ (List.mem_filter.mpr ⟨hr', (bnot_isEmpty_iff _).mpr hs'⟩))
    · intro h ks hks
      obtain ⟨r', hr', rfl⟩ := List.mem_map.mp hks
      have hm := List.mem_filter.mp hr'
      exact h r' hm.1 ((bnot_isEmpty_iff _).mp hm.2)

theorem nodup_commonWls (rows : List Row) : (commonWls rows).Nodup := by
  unfold commonWls
  cases hf : (rows.filter (fun r => !r.spectral.isEmpty)).map specKeys with
  | nil => exact List.nodup_nil
  | cons s t =>
    apply nodup_foldl_filter
    have hs : s ∈ (rows.filter (fun r => !r.spectral.isEmpty)).map specKeys := by
      rw [hf]
      exact List.mem_cons_self s t
    obtain ⟨r', _, rfl⟩ := List.mem_map.mp hs
    exact List.nodup_dedup _

theorem sorted_lt_sortOn_id {l : List Nat} (h : l.Nodup) :
    (sortOn id l).Pairwise (· < ·) := by
  have hs := sortOn_pairwise id l
  have hn : (sortOn id l).Nodup := ((sortOn_perm id l).nodup_iff).mpr h
  exact (hs.and hn).imp (fun hab => lt_of_le_of_ne hab.1 hab.2)

/-- Claim C3: when a retained measurement row has spectral data, the emitted
band set is the strictly ascending intersection of the wavelength sets of
exactly the rows that have any spectral data (rows with empty spectral maps
do not shrink it), and a row lacking a value for an included band writes zero
for that cell. -/
theorem claim_C3 :
    ∀ (df : List String) (dv : List (Int × List ℚ)) (rows : List Row)
      (locs : List (Int × String)),
      (∃ r ∈ rows.take (min dv.length rows.length), r.spectral ≠ []) →
      ((∀ w, w ∈ (write_ti3 df dv rows locs).spec_wls ↔
          ∀ r ∈ rows, r.spectral ≠ [] → w ∈ specKeys r) ∧
        (write_ti3 df dv rows locs).spec_wls.Pairwise (· < ·)) ∧
      (∀ (r : Row) (w : Nat), r.spectral.lookup w = none →
        specCell r w = Cell.spec 0) := by
  intro df dv rows locs hex
  obtain ⟨r0, hr0, hs0⟩ := hex
  have hr0' : r0 ∈ rows := List.take_subset _ _ hr0
  have hspec : (rows.any fun r => !r.spectral.isEmpty) = true :=
    List.any_eq_true.mpr ⟨r0, hr0', (bnot_isEmpty_iff _).mpr hs0⟩
  have hwls : (write_ti3 df dv rows locs).spec_wls = sortOn id (commonWls rows) := by
    rw [write_ti3_spec_wls, if_pos hspec]
  refine ⟨⟨?_, ?_⟩, ?_⟩
  · intro w
    rw [hwls, mem_sortOn, mem_commonWls ⟨r0, hr0', hs0⟩]
  · rw [hwls]
    exact sorted_lt_sortOn_id (nodup_commonWls rows)
  · intro r w hw
    simp [specCell, hw]

/-- Claim C3 witness: two spectral rows with bands 400, 500 and 400, 500,
600; the emitted band set keeps 400 and drops 600. -/
theorem claim_C3_witness :
    400 ∈ (write_ti3 [] [(1, []), (2, [])] [rSpecA, rSpecB] []).spec_wls ∧
    600 ∉ (write_ti3 [] [(1, []), (2, [])] [rSpecA, rSpecB] []).spec_wls := by
  have h := claim_C3 [] [(1, []), (2, [])] [rSpecA, rSpecB] []
    ⟨rSpecA, by decide, by decide⟩
  refine ⟨(h.1.1 400).mpr (by decide), fun hm => ?_⟩
  have h6 := (h.1.1 600).mp hm rSpecA (by decide) (by decide)
  exact absurd h6 (by decide)

theorem pairwise_fst_genLabels {dv : List (Int × List ℚ)}
    (hdv : dv.Pairwise (fun p q => p.1 ≤ q.1)) (f : Nat → String) :
    ((List.range dv.length).map (fun i => ((dv.getD i (0, [])).1, f i))).Pairwise
      (fun p q => p.1 ≤ q.1) := by
  rw [List.pairwise_map]
  have hmono : ∀ i j, i < j → j < dv.length →
      (dv.getD i (0, [])).1 ≤ (dv.getD j (0, [])).1 := by
    intro i j hij hj
    have hi : i < dv.length := lt_trans hij hj
    simp only [List.getD_eq_getD_get?, List.get?_eq_getElem?,
      List.getElem?_eq_getElem hi, List.getElem?_eq_getElem hj, Option.getD_some]
    exact List.pairwise_iff_get.mp hdv ⟨i, hi⟩ ⟨j, hj⟩ hij
  refine List.Pairwise.imp_of_mem ?_ (List.pairwise_lt_range dv.length)
  intro a b ha hb hab
  exact hmono a b hab (List.mem_range.mp hb)

/-- Claim C4: location derivation runs iff both header counts are present,
positive and multiply to the device-sample count (the textual parse tolerates
float-shaped text such as "2.0"); on the id-sorted table, position i is
labelled bijective base-26 of (i div columns) next to (i mod columns)+1
under strip-then-patch, which is also the default for unrecognised modes,
and bijective base-26 of (i mod rows) next to (i div rows)+1 under
patch-then-strip; the concrete 2-by-3 strip-then-patch instance with sample
ids 1..6 yields A1, A2, B1, B2, C1, C2. -/
theorem claim_C4 :
    (∀ (cols? rows? : Option Int) (ord : String) (dv : List (Int × List ℚ)),
      derive_sample_locs cols? rows? ord dv ≠ [] ↔
        ∃ c r, cols? = some c ∧ rows? = some r ∧ 0 < c ∧ 0 < r ∧
          (dv.length : Int) = c * r) ∧
    (∀ (c r : Int) (ord : String) (dv : List (Int × List ℚ)),
      dv.Pairwise (fun p q => p.1 ≤ q.1) →
      0 < c → 0 < r → (dv.length : Int) = c * r →
      (∀ i, i < dv.length → ord ≠ "PATCH_THEN_STRIP" →
        (derive_sample_locs (some c) (some r) ord dv).get? i =
          some ((dv.getD i (0, [])).1,
            row_label (i / c.toNat) ++ Nat.repr (i % c.toNat + 1))) ∧
      (∀ i, i < dv.length → ord = "PATCH_THEN_STRIP" →
        (derive_sample_locs (some c) (some r) ord dv).get? i =
          some ((dv.getD i (0, [])).1,
            row_label (i % r.toNat) ++ Nat.repr (i / r.toNat + 1)))) ∧
    (derive_sample_locs (some 2) (some 3) "STRIP_THEN_PATCH"
        [(1, []), (2, []), (3, []), (4, []), (5, []), (6, [])] =
      [(1, "A1"), (2, "A2"), (3, "B1"), (4, "B2"), (5, "C1"), (6, "C2")]) ∧
    parseColsRows (some "2.0") (some "3") = (some 2, some 3) := by
  refine ⟨?_, ?_, by decide, by decide⟩
  · intro cols? rows? ord dv
    cases cols? with
    | none => simp [derive_sample_locs]
    | some c =>
      cases rows? with
      | none => simp [derive_sample_locs]
      | some r =>
        simp only [derive_sample_locs]
        split
        · rename_i hcond
          obtain ⟨hc, hr, hlen⟩ := hcond
          have hN : 0 < dv.length := by
            have hpos := mul_pos hc hr
            omega
          constructor
          · exact fun _ => ⟨c, r, rfl, rfl, hc, hr, hlen⟩
          · intro _
            apply List.length_pos.mp
            rw [length_sortOn]
            split
            · simpa using hN
            split
            · simpa using hN
            · simpa using hN
        · rename_i hcond
          constructor
          · intro h
            exact absurd rfl h
          · rintro ⟨c', r', hc', hr', h1, h2, h3⟩
            injection hc' with hcc
            injection hr' with hrr
            subst hcc
            subst hrr
            exact absurd ⟨h1, h2, h3⟩ hcond
  · intro c r ord dv hdv hc hr hlen
    have hgen : ∀ (f : Nat → String),
        sortOn Prod.fst ((List.range dv.length).map
          (fun i => ((dv.getD i (0, [])).1, f i))) =
        (List.range dv.length).map (fun i => ((dv.getD i (0, [])).1, f i)) :=
      fun f => sortOn_eq_self (pairwise_fst_genLabels hdv f)
    constructor
    · intro i hi hord
      simp only [derive_sample_locs, if_pos (And.intro hc (And.intro hr hlen))]
      by_cases hs : ord = "STRIP_THEN_PATCH"
      · rw [if_pos hs, hgen, List.get?_map, List.get?_range hi]
        rfl
      · rw [if_neg hs, if_neg hord, hgen, List.get?_map, List.get?_range hi]
        rfl
    · intro i hi hord
      simp only [derive_sample_locs, if_pos (And.intro hc (And.intro hr hlen))]
      rw [if_neg (by rw [hord]; decide), if_pos hord, hgen, List.get?_map,
        List.get?_range hi]
      rfl

/-- Claim C4 witness: a 2-by-2 patch-then-strip derivation, with the
nonemptiness equivalence and the per-index label formula instantiated. -/
theorem claim_C4_witness :
    derive_sample_locs (some 2) (some 2) "PATCH_THEN_STRIP"
      [(1, []), (2, []), (3, []), (4, [])] ≠ [] ∧
    (derive_sample_locs (some 2) (some 2) "PATCH_THEN_STRIP"
      [(1, []), (2, []), (3, []), (4, [])]).get? 1 = some (2, "B1") := by
  have h := claim_C4
  constructor
  · exact (h.1 (some 2) (some 2) "PATCH_THEN_STRIP" _).mpr
      ⟨2, 2, rfl, rfl, by decide, by decide, by decide⟩
  · have h2 := (h.2.1 2 2 "PATCH_THEN_STRIP" [(1, []), (2, []), (3, []), (4, [])]
      (by decide) (by decide) (by decide) (by decide)).2 1 (by decide) rfl
    exact h2.trans (by decide)

/-- The emitted field list of the single-path writer, by definition. -/
theorem write_ti3_v2_fields (df : List String) (dv : List (Int × List ℚ))
    (rows : List Row) (ps px : Bool) :
    (write_ti3_v2 df dv rows ps px).fields =
      ti3Fields false df (write_ti3_v2 df dv rows ps px).include_xyz
        (write_ti3_v2 df dv rows ps px).include_lab
        (write_ti3_v2 df dv rows ps px).spec_wls := rfl

theorem write_ti3_v2_flags_spec (df : List String) (dv : List (Int × List ℚ))
    (rows : List Row) (px : Bool)
    (hspec : (rows.any fun r => !r.spectral.isEmpty) = true) :
    (write_ti3_v2 df dv rows true px).include_xyz = false ∧
    (write_ti3_v2 df dv rows true px).include_lab = false := by
  simp only [write_ti3_v2]
  rw [hspec]
  exact ⟨rfl, rfl⟩

/-- Claim C6: in the single-path writer, spectral presence with the spectral
preference suppresses both XYZ and Lab columns; and when XYZ is selected but
a row lacks a complete XYZ triple while carrying a complete Lab triple, the
row's XYZ cells are back-filled through the Lab-to-XYZ transform at the
fixed D50 reference white. -/
theorem claim_C6 :
    (∀ (df : List String) (dv : List (Int × List ℚ)) (rows : List Row)
      (px : Bool), "XYZ_X" ∉ df → "LAB_L" ∉ df →
      (rows.any fun r => !r.spectral.isEmpty) = true →
      "XYZ_X" ∉ (write_ti3_v2 df dv rows true px).fields ∧
      "LAB_L" ∉ (write_ti3_v2 df dv rows true px).fields) ∧
    (∀ (r : Row) (l a b : ℚ), r.L = some l → r.a = some a → r.b = some b →
      ¬(r.X.isSome ∧ r.Y.isSome ∧ r.Z.isSome) →
      xyzCellsBF r = [Cell.xyz (lab_to_xyz l a b "D50").1,
        Cell.xyz (lab_to_xyz l a b "D50").2.1,
        Cell.xyz (lab_to_xyz l a b "D50").2.2]) ∧
    xyzCellsBF rLabWhite =
      [Cell.xyz (96422 / 1000), Cell.xyz 100, Cell.xyz (82521 / 1000)] := by
  refine ⟨?_, ?_, by decide⟩
  · intro df dv rows px hdx hdl hspec
    have hfl := write_ti3_v2_flags_spec df dv rows px hspec
    constructor
    · rw [write_ti3_v2_fields, mem_ti3Fields_xyz hdx, hfl.1]
      simp
    · rw [write_ti3_v2_fields, mem_ti3Fields_lab hdl, hfl.2]
      simp
  · intro r l a b hL ha hb hX
    unfold xyzCellsBF
    split
    · simp_all
    · rw [hL, ha, hb]

/-- Claim C6 witness: a spectral row suppresses the XYZ column, and a row
with Lab 50, 0, 0 and no XYZ data gets back-filled XYZ cells. -/
theorem claim_C6_witness :
    "XYZ_X" ∉ (write_ti3_v2 [] [(1, [])] [rSpecA] true true).fields ∧
    xyzCellsBF rLabOnly = [Cell.xyz (lab_to_xyz 50 0 0 "D50").1,
      Cell.xyz (lab_to_xyz 50 0 0 "D50").2.1,
      Cell.xyz (lab_to_xyz 50 0 0 "D50").2.2] := by
  have h := claim_C6
  exact ⟨(h.1 [] [(1, [])] [rSpecA] true (by decide) (by decide) (by decide)).1,
    h.2.1 rLabOnly 50 0 0 rfl rfl rfl (by decide)⟩

theorem csvRow_skip {ix : CsvIdx} (hL : ix.L = none) (hX : ix.X = none)
    (line : String) : csvRow ix line = none := by
  unfold csvRow
  rw [hL, hX]
  exact rfl

theorem pyOrChain_none {h0 : String} {hs : List String} {key qstar kstar : String}
    (hkey0 : norm h0 = key) (hkrest : ∀ h ∈ hs, norm h ≠ key)
    (hq : '*' ∈ qstar.data) (hkstar : ∀ h ∈ h0 :: hs, norm h ≠ kstar) :
    pyOrIdx (pyOrIdx (hget (h0 :: hs) key) (hget (h0 :: hs) qstar))
      (hget (h0 :: hs) kstar) = none := by
  have h1 : hget (h0 :: hs) key = some 0 := by
    unfold hget
    rw [hgetAux_cons, hgetAux_eq_none hkrest 1]
    simp [hkey0]
  have h2 : hget (h0 :: hs) qstar = none := hget_star_none _ hq
  have h3 : hget (h0 :: hs) kstar = none := hgetAux_eq_none hkstar 0
  rw [h1, h2, h3]
  rfl

theorem csvRow_L_none {ix : CsvIdx} (hL : ix.L = none) {line : String} {r : Row}
    (h : csvRow ix line = some r) : r.L = none := by
  simp only [csvRow, hL] at h
  split at h
  · simp at h
  · injection h with h
    subst h
    rfl

theorem csvRow_a_none {ix : CsvIdx} (ha : ix.a = none) {line : String} {r : Row}
    (h : csvRow ix line = some r) : r.a = none := by
  simp only [csvRow, ha] at h
  split at h
  · simp at h
  · injection h with h
    subst h
    rfl

theorem csvRow_b_none {ix : CsvIdx} (hb : ix.b = none) {line : String} {r : Row}
    (h : csvRow ix line = some r) : r.b = none := by
  simp only [csvRow, hb] at h
  split at h
  · simp at h
  · injection h with h
    subst h
    rfl

/-- Claim C9: a header cell at CSV column 0 normalising to l, a or b, with no
star-variant alternative, is lost by the falsy-zero `or` chain, so that Lab
component is absent (none) in every parsed row — also when an X column keeps
rows retained; in particular, an L column at index 0 with no X column
anywhere makes the parse succeed with an empty row list.  Plainly looked-up
columns such as name or X resolve index 0 normally. -/
theorem claim_C9 :
    (∀ (text : String) (h0 : String) (hs : List String) (d : CR30Data),
      csvHeader ((splitlines text).headD "") = h0 :: hs →
      parse_cr30_csv text = .ok d →
      ((norm h0 = "l" → (∀ h ∈ hs, norm h ≠ "l") →
          (∀ h ∈ h0 :: hs, norm h ≠ "lstar") → ∀ r ∈ d.rows, r.L = none) ∧
       (norm h0 = "a" → (∀ h ∈ hs, norm h ≠ "a") →
          (∀ h ∈ h0 :: hs, norm h ≠ "astar") → ∀ r ∈ d.rows, r.a = none) ∧
       (norm h0 = "b" → (∀ h ∈ hs, norm h ≠ "b") →
          (∀ h ∈ h0 :: hs, norm h ≠ "bstar") → ∀ r ∈ d.rows, r.b = none))) ∧
    (∀ (text : String) (h0 : String) (hs : List String),
      csvHeader ((splitlines text).headD "") = h0 :: hs →
      norm h0 = "l" →
      (∀ h ∈ hs, norm h ≠ "l") →
      (∀ h ∈ h0 :: hs, norm h ≠ "lstar") →
      (∀ h ∈ h0 :: hs, norm h ≠ "x") →
      parse_cr30_csv text =
        .ok { rows := [], illum_code := none, observer_deg := none }) ∧
    (∀ (h0 : String) (hs : List String), norm h0 = "x" →
      (∀ h ∈ hs, norm h ≠ "x") → hget (h0 :: hs) "x" = some 0) ∧
    (∀ (h0 : String) (hs : List String), norm h0 = "name" →
      (∀ h ∈ hs, norm h ≠ "name") → hget (h0 :: hs) "name" = some 0) := by
  refine ⟨?_, ?_, ?_, ?_⟩
  · intro text h0 hs d hhead hok
    obtain ⟨l0, rest, hsplit⟩ : ∃ l0 rest, splitlines text = l0 :: rest := by
      cases hsp : splitlines text with
      | nil => exact absurd hsp (splitlines_ne_nil text)
      | cons a t => exact ⟨a, t, rfl⟩
    rw [hsplit] at hhead
    simp only [List.headD_cons] at hhead
    unfold parse_cr30_csv at hok
    rw [hsplit] at hok
    injection hok with hok
    refine ⟨?_, ?_, ?_⟩
    · intro hk0 hkrest hkstar r hr
      rw [← hok] at hr
      obtain ⟨ln, _, hfr⟩ := List.mem_filterMap.mp hr
      by_cases hblank : pyStrip ln = ""
      · rw [if_pos hblank] at hfr
        simp at hfr
      · rw [if_neg hblank] at hfr
        refine csvRow_L_none ?_ hfr
        show pyOrIdx (pyOrIdx (hget (csvHeader l0) "l") (hget (csvHeader l0) "l*"))
          (hget (csvHeader l0) "lstar") = none
        rw [hhead]
        exact pyOrChain_none hk0 hkrest (by decide) hkstar
    · intro hk0 hkrest hkstar r hr
      rw [← hok] at hr
      obtain ⟨ln, _, hfr⟩ := List.mem_filterMap.mp hr
      by_cases hblank : pyStrip ln = ""
      · rw [if_pos hblank] at hfr
        simp at hfr
      · rw [if_neg hblank] at hfr
        refine csvRow_a_none ?_ hfr
        show pyOrIdx (pyOrIdx (hget (csvHeader l0) "a") (hget (csvHeader l0) "a*"))
          (hget (csvHeader l0) "astar") = none
        rw [hhead]
        exact pyOrChain_none hk0 hkrest (by decide) hkstar
    · intro hk0 hkrest hkstar r hr
      rw [← hok] at hr
      obtain ⟨ln, _, hfr⟩ := List.mem_filterMap.mp hr
      by_cases hblank : pyStrip ln = ""
      · rw [if_pos hblank] at hfr
        simp at hfr
      · rw [if_neg hblank] at hfr
        refine csvRow_b_none ?_ hfr
        show pyOrIdx (pyOrIdx (hget (csvHeader l0) "b") (hget (csvHeader l0) "b*"))
          (hget (csvHeader l0) "bstar") = none
        rw [hhead]
        exact pyOrChain_none hk0 hkrest (by decide) hkstar
  · intro text h0 hs hhead hl0 hlrest hlstar hx
    obtain ⟨l0, rest, hsplit⟩ : ∃ l0 rest, splitlines text = l0 :: rest := by
      cases hsp : splitlines text with
      | nil => exact absurd hsp (splitlines_ne_nil text)
      | cons a t => exact ⟨a, t, rfl⟩
    rw [hsplit] at hhead
    simp only [List.headD_cons] at hhead
    have hL : (csvIdx (csvHeader l0)).L = none := by
      show pyOrIdx (pyOrIdx (hget (csvHeader l0) "l") (hget (csvHeader l0) "l*"))
        (hget (csvHeader l0) "lstar") = none
      rw [hhead]
      exact pyOrChain_none hl0 hlrest (by decide) hlstar
    have hXn : (csvIdx (csvHeader l0)).X = none := by
      show hget (csvHeader l0) "x" = none
      rw [hhead]
      exact hgetAux_eq_none hx 0
    have hrows : rest.filterMap (fun ln => if pyStrip ln = "" then none
        else csvRow (csvIdx (csvHeader l0)) ln) = [] := by
      rw [List.filterMap_eq_nil]
      intro ln _
      by_cases hblank : pyStrip ln = ""
      · simp [hblank]
      · simp [hblank, csvRow_skip hL hXn]
    unfold parse_cr30_csv
    rw [hsplit]
    simp only [hrows]
    rfl
  · intro h0 hs h0x hrest
    unfold hget
    rw [hgetAux_cons, hgetAux_eq_none hrest 1]
    simp [h0x]
  · intro h0 hs h0n hrest
    unfold hget
    rw [hgetAux_cons, hgetAux_eq_none hrest 1]
    simp [h0n]

/-- Claim C9 witness: a CSV with header a;X keeps its one data row (X is
present) yet parses the a component as absent; a header L;foo with no X
column parses to zero rows; and a header starting with X resolves the X
column at index 0. -/
theorem claim_C9_witness :
    (∃ d, parse_cr30_csv "a;X\n5;7\n" = .ok d ∧ d.rows.length = 1 ∧
      ∀ r ∈ d.rows, r.a = none) ∧
    parse_cr30_csv "L;foo\n50;1\n" =
      .ok { rows := [], illum_code := none, observer_deg := none } ∧
    hget ["X", "junk"] "x" = some 0 := by
  have h := claim_C9
  refine ⟨?_, h.2.1 "L;foo\n50;1\n" "L" ["foo"] (by decide) (by decide) (by decide)
      (by decide) (by decide),
    h.2.2.1 "X" ["junk"] (by decide) (by decide)⟩
  cases hp : parse_cr30_csv "a;X\n5;7\n" with
  | error e =>
    have hT : exOk (parse_cr30_csv "a;X\n5;7\n") = true := by decide
    rw [hp] at hT
    simp [exOk] at hT
  | ok d =>
    refine ⟨d, rfl, ?_, ?_⟩
    · have hlen : (parse_cr30_csv "a;X\n5;7\n").toOption.map
          (fun x => x.rows.length) = some 1 := by decide
      rw [hp] at hlen
      exact Option.some.inj hlen
    · exact (h.1 "a;X\n5;7\n" "a" ["X"] d (by decide) hp).2.1
        (by decide) (by decide) (by decide)

/-- Claim C10 counterexample: a COLOR_REP line at index 60 — within the first
80 lines — is picked up by parse_ti2 but missed by parse_ti1, whose scan
stops after 50 lines; the 80-line first-match rule therefore fails for the
TI1 layout parser that the claim also covers. -/
theorem claim_C10_counterexample :
    matchColorRep (exLate.getD 60 "") = some "XYZ" ∧
    (parse_ti2 exLate).toOption.map (fun d => d.color_rep_device) =
      some (some "XYZ") ∧
    (parse_ti1 exLate).toOption.map (fun d => d.color_rep_device) =
      some none := by
  decide

/-- Claim C10 (amended): the TI2 layout parser scans only the first 80 lines
for the COLOR_REP declaration while the TI1 variant scans only the first 50;
within the scanned window the first matching line wins; and absence of the
line is not an error, since parse success depends only on finding the
data-format block. -/
theorem claim_C10 :
    (∀ (k : Nat) (lines : List String),
      colorRepScan k lines = colorRepScan k (lines.take k)) ∧
    (∀ (k : Nat) (lines : List String) (i : Nat) (ln v : String),
      lines.get? i = some ln → i < k → matchColorRep ln = some v →
      (∀ j lnj, j < i → lines.get? j = some lnj → matchColorRep lnj = none) →
      colorRepScan k lines = some v) ∧
    (∀ (lines : List String) (d : TI2Doc), parse_ti2 lines = .ok d →
      d.color_rep_device = colorRepScan 80 lines) ∧
    (∀ (lines : List String) (d : TI1Doc), parse_ti1 lines = .ok d →
      d.color_rep_device = colorRepScan 50 lines) ∧
    (∀ lines : List String, exOk (parse_ti2 lines) = true ↔
      (fmtScan 0 none lines).1.isSome ∧ (fmtScan 0 none lines).2.isSome) := by
  refine ⟨?_, ?_, ?_, ?_, ?_⟩
  · intro k lines
    unfold colorRepScan
    rw [List.take_take, min_self]
  · intro k lines i ln v hg hik hm hprev
    unfold colorRepScan
    refine findSome?_eq_of_first (lines.take k) i ln v ?_ hm ?_
    · rw [List.get?_eq_getElem?, List.getElem?_take_of_lt hik, ← List.get?_eq_getElem?]
      exact hg
    · intro j y hj hgj
      have hjk : j < k := lt_trans hj hik
      rw [List.get?_eq_getElem?, List.getElem?_take_of_lt hjk,
        ← List.get?_eq_getElem?] at hgj
      exact hprev j y hj hgj
  · intro lines d hok
    unfold parse_ti2 at hok
    rcases hscan : fmtScan 0 none lines with ⟨st, en⟩
    rw [hscan] at hok
    cases st with
    | none => simp at hok
    | some fs =>
      cases en with
      | none => simp at hok
      | some fe =>
        injection hok with hok
        subst hok
        rfl
  · intro lines d hok
    unfold parse_ti1 at hok
    rcases hscan : fmtScan 0 none lines with ⟨st, en⟩
    rw [hscan] at hok
    cases st with
    | none => simp at hok
    | some fs =>
      cases en with
      | none => simp at hok
      | some fe =>
        injection hok with hok
        subst hok
        rfl
  · intro lines
    unfold parse_ti2
    rcases hscan : fmtScan 0 none lines with ⟨st, en⟩
    cases st <;> cases en <;> simp [exOk]

/-- Claim C10 witness: on the late-COLOR_REP layout, the successful TI2
parse carries the declaration found by the 80-line scan, while the 50-line
scan comes up empty. -/
theorem claim_C10_witness :
    colorRepScan 80 exLate = some "XYZ" ∧ colorRepScan 50 exLate = none := by
  have h := claim_C10
  constructor
  · cases hp : parse_ti2 exLate with
    | error e =>
      have hT : exOk (parse_ti2 exLate) = true := by decide
      rw [hp] at hT
      simp [exOk] at hT
    | ok d =>
      have hc : (parse_ti2 exLate).toOption.map (fun x => x.color_rep_device) =
          some (some "XYZ") := by decide
      rw [hp] at hc
      change some d.color_rep_device = some (some "XYZ") at hc
      injection hc with hc
      exact (h.2.2.1 exLate d hp).symm.trans hc
  · exact (h.1 50 exLate).trans (by decide)

end ClaimTheorems

end CR30
